import Mathlib

set_option maxHeartbeats 1000000

/-!
Verification of the hostapd ACS (Automatic Channel Selection) module,
a shallow embedding of src/ap/acs.c.

Modelling conventions:
* unsigned 64-bit time counters (`u64`) become `Nat`; the signed noise
  floor (`s8`) becomes `Int`;
* the `filled` bitmask of `struct freq_survey` becomes one `Bool` per
  SURVEY_HAS_* flag, and the `flag` bitmask of
  `struct hostapd_channel_data` becomes one `Bool` per used bit
  (HOSTAPD_CHAN_DISABLED, HOSTAPD_CHAN_SURVEY_LIST_INITIALIZED);
* `long double` interference factors are idealised as real numbers in
  the scorer; the selector and the orchestration are stated over an
  arbitrary ordered carrier `α` for the factor field, so that every
  control-flow property holds for the real instantiation and can also
  be evaluated on computable carriers;
* the driver collaborators (scan request, survey retrieval) and the
  setup-completion check are external; their outcomes are explicit
  parameters of the orchestration functions;
* doubly linked survey lists become `List freq_survey`; freeing the
  list elements becomes replacing the list by `[]`.
-/

/-- Model of `struct freq_survey`: one survey record.  The five `has_*`
fields model the SURVEY_HAS_NF, SURVEY_HAS_CHAN_TIME,
SURVEY_HAS_CHAN_TIME_BUSY, SURVEY_HAS_CHAN_TIME_RX and
SURVEY_HAS_CHAN_TIME_TX bits of `survey->filled`. -/
structure freq_survey where
  nf : Int
  channel_time : Nat
  channel_time_busy : Nat
  channel_time_rx : Nat
  channel_time_tx : Nat
  has_nf : Bool
  has_chan_time : Bool
  has_chan_time_busy : Bool
  has_chan_time_rx : Bool
  has_chan_time_tx : Bool
  deriving DecidableEq

/-- Model of `enum hostapd_hw_mode` (the three modes acs.c inspects). -/
inductive hostapd_hw_mode where
  | ieee80211b
  | ieee80211g
  | ieee80211a
  deriving DecidableEq

/-- Model of `struct hostapd_channel_data`, carrying the fields acs.c
reads or writes.  `disabled` is the HOSTAPD_CHAN_DISABLED bit of
`chan->flag` and `survey_ready` the HOSTAPD_CHAN_SURVEY_LIST_INITIALIZED
bit.  The carrier `α` stands for the `long double`
`survey_interference_factor` field. -/
structure hostapd_channel_data (α : Type) where
  chan : Int
  freq : Int
  disabled : Bool
  survey_ready : Bool
  survey_list : List freq_survey
  min_nf : Int
  survey_interference_factor : α
  deriving DecidableEq

/-- Model of the fields of `struct hostapd_config` used by acs.c. -/
structure hostapd_config where
  ieee80211n : Bool
  secondary_channel : Int
  ieee80211ac : Bool
  vht_oper_chwidth : Int
  channel : Int
  vht_oper_centr_freq_seg0_idx : Int
  acs_chan_time_ms : Int
  deriving DecidableEq

/-- Model of the fields of `struct hostapd_iface` used by acs.c:
the current mode (`current_mode->mode` and `current_mode->channels`),
the band-wide lowest noise floor, the survey counter and the
configuration. -/
structure hostapd_iface (α : Type) where
  mode : hostapd_hw_mode
  channels : List (hostapd_channel_data α)
  lowest_nf : Int
  chans_surveyed : Nat
  conf : hostapd_config
  deriving DecidableEq

/-- Model of `enum hostapd_chan_status` (HOSTAPD_CHAN_VALID,
HOSTAPD_CHAN_INVALID, HOSTAPD_CHAN_ACS). -/
inductive hostapd_chan_status where
  | valid
  | invalid
  | acs
  deriving DecidableEq

/-- Terminal outcome of one ACS run in the model: the successful
COMMITTED terminal or the FAILED terminal. -/
inductive acs_run_outcome where
  | committed
  | failed
  deriving DecidableEq

/-- Embedding of `acs_survey_interference_factor` (acs.c:209).  The C
computes over `long double`; the model computes over the reals, with
`x ^ y` the real (rpow) power.  The first match mirrors the C chain:
busy time if present, else rx time, else return 0. -/
noncomputable def acs_survey_interference_factor (survey : freq_survey)
    (min_nf : Int) : ℝ :=
  match (if survey.has_chan_time_busy then
           some ((survey.channel_time_busy : ℝ))
         else if survey.has_chan_time_rx then
           some ((survey.channel_time_rx : ℝ))
         else none) with
  | none => 0
  | some busy0 =>
    let total0 : ℝ := survey.channel_time
    let busy : ℝ :=
      if survey.has_chan_time_tx then busy0 - survey.channel_time_tx else busy0
    let total : ℝ :=
      if survey.has_chan_time_tx then total0 - survey.channel_time_tx else total0
    (10 : ℝ) ^ ((survey.nf : ℝ) / 5) +
      busy / total *
        (2 : ℝ) ^ ((10 : ℝ) ^ ((survey.nf : ℝ) / 10) -
          (10 : ℝ) ^ ((min_nf : ℝ) / 10))

/-- Embedding of `acs_usable_chan` (acs.c:274): a channel is usable when
its survey list is non-empty and it is not disabled. -/
def acs_usable_chan {α : Type} (chan : hostapd_channel_data α) : Bool :=
  if chan.survey_list.isEmpty then false
  else if chan.disabled then false
  else true

/-- Embedding of `acs_usable_ht40_chan` (acs.c:284): the fixed allowed
set of HT40 primary channels. -/
def acs_usable_ht40_chan {α : Type} (chan : hostapd_channel_data α) : Bool :=
  ([36, 44, 52, 60, 100, 108, 116, 124, 132, 149, 157, 184, 192] :
    List Int).contains chan.chan

/-- Embedding of `acs_survey_is_sufficient` (acs.c:298), mirroring the
three early-return checks. -/
def acs_survey_is_sufficient (survey : freq_survey) : Bool :=
  if ¬ survey.has_nf then false
  else if ¬ survey.has_chan_time then false
  else if ¬ survey.has_chan_time_busy ∧ ¬ survey.has_chan_time_rx then false
  else true

/-- Embedding of `acs_surveys_are_sufficient` (acs.c:321): disabled
channels are skipped; any insufficient record fails the whole check. -/
def acs_surveys_are_sufficient {α : Type} (iface : hostapd_iface α) : Bool :=
  iface.channels.all (fun chan =>
    if chan.disabled then true
    else chan.survey_list.all (fun survey => acs_survey_is_sufficient survey))

/-- Embedding of `acs_find_chan` (acs.c:370): first channel of the
table that is usable and has exactly the requested frequency. -/
def acs_find_chan {α : Type} (iface : hostapd_iface α) (freq : Int) :
    Option (hostapd_channel_data α) :=
  iface.channels.find? (fun chan => acs_usable_chan chan && chan.freq == freq)

/-- One iteration of the contiguous-bandwidth loop of
`acs_find_ideal_chan` (acs.c:447): look up the sub-channel at
`freq0 + j*20` MHz and add its factor; a missing sub-channel (the C
`break`) collapses the accumulator to `none`. -/
def acs_bw_step {α : Type} [Add α] (iface : hostapd_iface α) (freq0 : Int)
    (acc : Option α) (j : Nat) : Option α :=
  match acc with
  | none => none
  | some factor =>
    match acs_find_chan iface (freq0 + 20 * (j : Int)) with
    | none => none
    | some adj_chan => some (factor + adj_chan.survey_interference_factor)

/-- The contiguous-bandwidth accumulation of `acs_find_ideal_chan`
(acs.c:445-459): start from the candidate's own factor and run the loop
for j = 1 .. n_chans - 1. -/
def acs_bw_total {α : Type} [Add α] (iface : hostapd_iface α)
    (chan : hostapd_channel_data α) (n_chans : Nat) : Option α :=
  (List.range' 1 (n_chans - 1)).foldl (acs_bw_step iface chan.freq)
    (some chan.survey_interference_factor)

/-- One conditional addition of an adjacent channel's factor
(acs.c:468-482): add only when the lookup finds a usable channel. -/
def acs_adj_add {α : Type} [Add α] (iface : hostapd_iface α) (freq : Int)
    (factor : α) : α :=
  match acs_find_chan iface freq with
  | some adj_chan => factor + adj_chan.survey_interference_factor
  | none => factor

/-- One iteration (sub-channel `j`) of the 2.4 GHz adjacent-channel loop
of `acs_find_ideal_chan` (acs.c:465-483), in source order:
-5, -10, +5, +10 MHz around `freq0 + j*20`. -/
def acs_adj_step {α : Type} [Add α] (iface : hostapd_iface α) (freq0 : Int)
    (factor : α) (j : Nat) : α :=
  acs_adj_add iface (freq0 + 20 * (j : Int) + 10)
    (acs_adj_add iface (freq0 + 20 * (j : Int) + 5)
      (acs_adj_add iface (freq0 + 20 * (j : Int) - 10)
        (acs_adj_add iface (freq0 + 20 * (j : Int) - 5) factor)))

/-- The full 2.4 GHz adjacent-channel accumulation of
`acs_find_ideal_chan` (acs.c:461-484): j = 0 .. n_chans - 1. -/
def acs_adj_total {α : Type} [Add α] (iface : hostapd_iface α)
    (chan : hostapd_channel_data α) (n_chans : Nat) (factor : α) : α :=
  (List.range n_chans).foldl (acs_adj_step iface chan.freq) factor

/-- The bandwidth mode of the selection, in number of 20 MHz
sub-channels (acs.c:400-417): 2 for HT40, 4 for VHT80, else 1. -/
def acs_num_chans (conf : hostapd_config) : Nat :=
  let n : Nat := if conf.ieee80211n ∧ conf.secondary_channel ≠ 0 then 2 else 1
  if conf.ieee80211ac ∧ conf.vht_oper_chwidth = 1 then 4 else n

/-- The per-candidate body of the selection loop of
`acs_find_ideal_chan` (acs.c:428-487): `none` when the candidate is
skipped (unusable, disallowed HT40 primary on 5 GHz, or insufficient
contiguous bandwidth); otherwise the accumulated total, with the
adjacent-channel additions on the 2.4 GHz modes. -/
def acs_candidate_factor {α : Type} [Add α] (iface : hostapd_iface α)
    (n_chans : Nat) (chan : hostapd_channel_data α) : Option α :=
  if ¬ acs_usable_chan chan then none
  else if iface.mode = hostapd_hw_mode.ieee80211a ∧ iface.conf.ieee80211n ∧
      iface.conf.secondary_channel ≠ 0 ∧ ¬ acs_usable_ht40_chan chan then none
  else
    match acs_bw_total iface chan n_chans with
    | none => none
    | some factor =>
      if iface.mode = hostapd_hw_mode.ieee80211b ∨
          iface.mode = hostapd_hw_mode.ieee80211g then
        some (acs_adj_total iface chan n_chans factor)
      else some factor

/-- The running-minimum update of `acs_find_ideal_chan` (acs.c:489-492):
`!ideal_chan || factor < ideal_factor`. -/
def acs_ideal_step {α : Type} [LinearOrder α]
    (st : Option (hostapd_channel_data α × α))
    (cand : hostapd_channel_data α × α) :
    Option (hostapd_channel_data α × α) :=
  match st with
  | none => some cand
  | some best => if cand.2 < best.2 then some cand else some best

/-- The selection loop of `acs_find_ideal_chan` (acs.c:428-493),
tracking the pair (ideal_chan, ideal_factor). -/
def acs_find_ideal_state {α : Type} [Add α] [LinearOrder α]
    (iface : hostapd_iface α) : Option (hostapd_channel_data α × α) :=
  iface.channels.foldl
    (fun st chan =>
      match acs_candidate_factor iface (acs_num_chans iface.conf) chan with
      | none => st
      | some factor => acs_ideal_step st (chan, factor))
    none

/-- Embedding of `acs_find_ideal_chan` (acs.c:394-501): the upfront
HT40- rejection, then the selection loop. -/
def acs_find_ideal_chan {α : Type} [Add α] [LinearOrder α]
    (iface : hostapd_iface α) : Option (hostapd_channel_data α) :=
  if iface.conf.ieee80211n ∧ iface.conf.secondary_channel = -1 then none
  else (acs_find_ideal_state iface).map Prod.fst

/-- The qualifying candidates of the selection loop, in channel-table
order, each with its accumulated total. -/
def acs_candidates {α : Type} [Add α] (iface : hostapd_iface α) :
    List (hostapd_channel_data α × α) :=
  iface.channels.filterMap
    (fun chan =>
      (acs_candidate_factor iface (acs_num_chans iface.conf) chan).map
        (fun factor => (chan, factor)))

/-- Specification-side selection: the first element of the list whose
second component is less than or equal to every second component, i.e.
the first-encountered element attaining the minimum. -/
def selectFirstMin {β α : Type} [LinearOrder α] (l : List (β × α)) :
    Option (β × α) :=
  l.find? (fun x => l.all (fun y => decide (x.2 ≤ y.2)))

/-- Specification-side helper: the factor contributed by an optional
channel lookup — the channel's average factor when found, 0 when the
lookup found nothing. -/
def acs_found_factor {α : Type} [Zero α]
    (r : Option (hostapd_channel_data α)) : α :=
  match r with
  | some chan => chan.survey_interference_factor
  | none => 0

/-- Embedding of `acs_survey_chan_interference_factor` (acs.c:240):
sum the per-record factors of the channel and divide by the record
count, storing the mean in the channel.  The scorer is passed in as
`score`; acs.c instantiates it with
`acs_survey_interference_factor` at `iface->lowest_nf`. -/
def acs_survey_chan_interference_factor {α : Type} [LinearOrderedField α]
    (score : freq_survey → Int → α) (lowest_nf : Int)
    (chan : hostapd_channel_data α) : hostapd_channel_data α :=
  if chan.survey_list.isEmpty then chan
  else if chan.disabled then chan
  else
    { chan with survey_interference_factor :=
        (chan.survey_list.foldl (fun acc survey => acc + score survey lowest_nf) 0) /
          (chan.survey_list.length : α) }

/-- Embedding of `acs_survey_all_chans_intereference_factor`
(acs.c:348, source spelling kept): score every usable channel. -/
def acs_survey_all_chans_intereference_factor {α : Type} [LinearOrderedField α]
    (score : freq_survey → Int → α) (iface : hostapd_iface α) :
    hostapd_iface α :=
  { iface with channels :=
      iface.channels.map (fun chan =>
        if ¬ acs_usable_chan chan then chan
        else acs_survey_chan_interference_factor score iface.lowest_nf chan) }

/-- Embedding of `acs_cleanup` (acs.c:182): every channel of the current
mode gets an empty survey list (acs_clean_chan_surveys + dl_list_init),
the initialised flag, and `min_nf = 0`; the survey counter is reset. -/
def acs_cleanup {α : Type} (iface : hostapd_iface α) : hostapd_iface α :=
  { iface with
    channels := iface.channels.map (fun chan =>
      { chan with survey_list := [], survey_ready := true, min_nf := 0 }),
    chans_surveyed := 0 }

/-- Embedding of `acs_fail` (acs.c:202): report the error and clean up. -/
def acs_fail {α : Type} (iface : hostapd_iface α) : hostapd_iface α :=
  acs_cleanup iface

/-- Embedding of `acs_adjust_vht_sec_chan` (acs.c:504):
VHT_CHANWIDTH_USE_HT (0) places the centre segment at channel + 2,
VHT_CHANWIDTH_80MHZ (1) at channel + 6; other widths are unsupported
and leave the field unchanged. -/
def acs_adjust_vht_sec_chan (conf : hostapd_config) : hostapd_config :=
  if ¬ conf.ieee80211ac then conf
  else if conf.vht_oper_chwidth = 0 then
    { conf with vht_oper_centr_freq_seg0_idx := conf.channel + 2 }
  else if conf.vht_oper_chwidth = 1 then
    { conf with vht_oper_centr_freq_seg0_idx := conf.channel + 6 }
  else conf

/-- Embedding of `acs_study_survey_based` (acs.c:530).  The Bool result
is true on success (C returns 0) and false on error (C returns -1);
the iface is returned unchanged on the error paths. -/
def acs_study_survey_based {α : Type} [LinearOrderedField α]
    (score : freq_survey → Int → α) (iface : hostapd_iface α) :
    hostapd_iface α × Bool :=
  if iface.chans_surveyed = 0 then (iface, false)
  else if ¬ acs_surveys_are_sufficient iface then (iface, false)
  else (acs_survey_all_chans_intereference_factor score iface, true)

/-- Embedding of `acs_study_options` (acs.c:549): only the survey-based
study exists; the BSS-based fallback is an unimplemented TODO. -/
def acs_study_options {α : Type} [LinearOrderedField α]
    (score : freq_survey → Int → α) (iface : hostapd_iface α) :
    hostapd_iface α × Bool :=
  acs_study_survey_based score iface

/-- Embedding of `acs_study` (acs.c:564).  `completed` is the outcome of
the external `hostapd_acs_completed` check; only HOSTAPD_CHAN_VALID
commits, every other outcome (INVALID, ACS, default) goes to the fail
label. -/
def acs_study {α : Type} [LinearOrderedField α]
    (score : freq_survey → Int → α) (completed : hostapd_chan_status)
    (iface : hostapd_iface α) : hostapd_iface α × acs_run_outcome :=
  let r := acs_study_options score iface
  if ¬ r.2 then (acs_fail r.1, acs_run_outcome.failed)
  else
    match acs_find_ideal_chan r.1 with
    | none => (acs_fail r.1, acs_run_outcome.failed)
    | some ideal_chan =>
      let iface2 := { r.1 with conf := { r.1.conf with channel := ideal_chan.chan } }
      let iface3 := { iface2 with conf := acs_adjust_vht_sec_chan iface2.conf }
      match completed with
      | hostapd_chan_status.valid => (acs_cleanup iface3, acs_run_outcome.committed)
      | _ => (acs_fail iface3, acs_run_outcome.failed)

/-- Embedding of `acs_scan_complete` (acs.c:609).  `get_survey_result`
models the effect of `hostapd_drv_get_survey`: `none` is a retrieval
error, `some iface2` the survey-populated interface state.  The source
has no `return` after `acs_fail` on the error path, so `acs_study`
still runs on the cleaned-up state; the model keeps that control flow. -/
def acs_scan_complete {α : Type} [LinearOrderedField α]
    (score : freq_survey → Int → α) (completed : hostapd_chan_status)
    (iface : hostapd_iface α) (get_survey_result : Option (hostapd_iface α)) :
    hostapd_iface α × acs_run_outcome :=
  match get_survey_result with
  | none => acs_study score completed (acs_fail iface)
  | some iface2 => acs_study score completed iface2

/-- Result of `acs_request_scan` in the model: the interface state, the
error flag (C returns -1 on error), whether `hostapd_driver_scan` was
invoked at all, and the frequency list handed to the driver. -/
structure acs_scan_request_result (α : Type) where
  iface : hostapd_iface α
  err : Bool
  scan_submitted : Bool
  scan_freqs : List Int
  deriving DecidableEq

/-- Embedding of `acs_request_scan` (acs.c:627): build the enabled
frequency list, hand it to the driver (`hostapd_driver_scan` is always
invoked, so `scan_submitted` is always true); on driver rejection
(`driver_ok = false`) clean up and report the error. -/
def acs_request_scan {α : Type} (iface : hostapd_iface α) (driver_ok : Bool) :
    acs_scan_request_result α :=
  let freqs := (iface.channels.filter (fun chan => !chan.disabled)).map
    (fun chan => chan.freq)
  if driver_ok then ⟨iface, false, true, freqs⟩
  else ⟨acs_cleanup iface, true, true, freqs⟩

/-- Embedding of `acs_init` (acs.c:661): clean up, request the scan, and
return HOSTAPD_CHAN_INVALID when the request failed, HOSTAPD_CHAN_ACS
when the run started.  The third component records whether a scan
request was submitted to the driver. -/
def acs_init {α : Type} (iface : hostapd_iface α) (driver_ok : Bool) :
    hostapd_iface α × hostapd_chan_status × Bool :=
  let iface1 := acs_cleanup iface
  let r := acs_request_scan iface1 driver_ok
  if r.err then (r.iface, hostapd_chan_status.invalid, r.scan_submitted)
  else (r.iface, hostapd_chan_status.acs, r.scan_submitted)

/-- The orchestration specialised to the concrete scorer of acs.c over
the reals. -/
noncomputable def acs_study_hostapd (completed : hostapd_chan_status)
    (iface : hostapd_iface ℝ) : hostapd_iface ℝ × acs_run_outcome :=
  acs_study acs_survey_interference_factor completed iface

/-- Concrete survey record with busy time present (values from the
sample analysis in the acs.c header comment). -/
def rec_c1 : freq_survey :=
  { nf := -111, channel_time := 5878, channel_time_busy := 199,
    channel_time_rx := 0, channel_time_tx := 0, has_nf := true,
    has_chan_time := true, has_chan_time_busy := true,
    has_chan_time_rx := false, has_chan_time_tx := false }

/-- Concrete sufficient survey record whose tx time exceeds its busy
time. -/
def rec_c3 : freq_survey :=
  { nf := 0, channel_time := 10, channel_time_busy := 0,
    channel_time_rx := 0, channel_time_tx := 5, has_nf := true,
    has_chan_time := true, has_chan_time_busy := true,
    has_chan_time_rx := false, has_chan_time_tx := true }

/-- Concrete sufficient survey record without tx time. -/
def rec_c3w : freq_survey :=
  { nf := -90, channel_time := 100, channel_time_busy := 30,
    channel_time_rx := 0, channel_time_tx := 0, has_nf := true,
    has_chan_time := true, has_chan_time_busy := true,
    has_chan_time_rx := false, has_chan_time_tx := false }

/-- A trivial computable scorer used to evaluate the generic
orchestration on concrete inputs. -/
def score0 : freq_survey → Int → ℚ := fun _ _ => 0

/-- Concrete configuration: HT40 with the plus secondary offset. -/
def conf_c4 : hostapd_config :=
  { ieee80211n := true, secondary_channel := 1, ieee80211ac := false,
    vht_oper_chwidth := 0, channel := 0, vht_oper_centr_freq_seg0_idx := 0,
    acs_chan_time_ms := 0 }

/-- Concrete channel at 2412 MHz with a non-empty survey list. -/
def chan_c4a : hostapd_channel_data Int :=
  { chan := 1, freq := 2412, disabled := false, survey_ready := true,
    survey_list := [rec_c1], min_nf := -111, survey_interference_factor := 3 }

/-- Concrete channel at 2432 MHz with a non-empty survey list. -/
def chan_c4b : hostapd_channel_data Int :=
  { chan := 5, freq := 2432, disabled := false, survey_ready := true,
    survey_list := [rec_c1], min_nf := -111, survey_interference_factor := 5 }

/-- Concrete two-channel HT40 interface over the computable carrier. -/
def iface_c4 : hostapd_iface Int :=
  { mode := hostapd_hw_mode.ieee80211g, channels := [chan_c4a, chan_c4b],
    lowest_nf := -111, chans_surveyed := 2, conf := conf_c4 }

/-- Concrete channel used for the orchestration evaluations. -/
def chan_c7 : hostapd_channel_data ℚ :=
  { chan := 1, freq := 2412, disabled := false, survey_ready := false,
    survey_list := [rec_c1], min_nf := -100, survey_interference_factor := 0 }

/-- Concrete interface whose scan collected no surveys. -/
def iface_c7 : hostapd_iface ℚ :=
  { mode := hostapd_hw_mode.ieee80211g, channels := [chan_c7],
    lowest_nf := -100, chans_surveyed := 0, conf := conf_c4 }

/-- The channel `chan_c7` after the terminal cleanup. -/
def chan_c7_clean : hostapd_channel_data ℚ :=
  { chan_c7 with survey_list := [], survey_ready := true, min_nf := 0 }

/-- Concrete configuration requesting 40 MHz with the minus secondary
offset (HT40-). -/
def conf_ht40m : hostapd_config :=
  { ieee80211n := true, secondary_channel := -1, ieee80211ac := false,
    vht_oper_chwidth := 0, channel := 0, vht_oper_centr_freq_seg0_idx := 0,
    acs_chan_time_ms := 0 }

/-- Concrete interface with the HT40- configuration, computable
carrier. -/
def iface_ht40m : hostapd_iface Int :=
  { mode := hostapd_hw_mode.ieee80211g, channels := [], lowest_nf := 0,
    chans_surveyed := 0, conf := conf_ht40m }

/-- Concrete interface with the HT40- configuration over ℚ. -/
def iface_c2q : hostapd_iface ℚ :=
  { mode := hostapd_hw_mode.ieee80211g, channels := [], lowest_nf := 0,
    chans_surveyed := 0, conf := conf_ht40m }

/-- Concrete channel at 2412 MHz over ℚ. -/
def chan_c10a : hostapd_channel_data ℚ :=
  { chan := 1, freq := 2412, disabled := false, survey_ready := true,
    survey_list := [rec_c1], min_nf := -111, survey_interference_factor := 1/2 }

/-- Concrete channel at 2417 MHz (5 MHz above `chan_c10a`) over ℚ. -/
def chan_c10b : hostapd_channel_data ℚ :=
  { chan := 2, freq := 2417, disabled := false, survey_ready := true,
    survey_list := [rec_c1], min_nf := -111, survey_interference_factor := 1/4 }

/-- Concrete 2.4 GHz interface in 20 MHz mode with two overlapping
channels. -/
def iface_c10 : hostapd_iface ℚ :=
  { mode := hostapd_hw_mode.ieee80211g, channels := [chan_c10a, chan_c10b],
    lowest_nf := -111, chans_surveyed := 2,
    conf := { conf_c4 with ieee80211n := false, secondary_channel := 0 } }

/-! Theorems. -/

lemma acs_sufficient_has_busy_or_rx (survey : freq_survey)
    (hsuff : acs_survey_is_sufficient survey = true) :
    survey.has_chan_time_busy = true ∨ survey.has_chan_time_rx = true := by
  obtain ⟨nf, ct, ctb, ctr, ctt, hnf, hct, hb, hr, ht⟩ := survey
  cases hnf <;> cases hct <;> cases hb <;> cases hr <;>
    simp_all [acs_survey_is_sufficient]

/-- C1: for every survey record with busy time or rx time present,
`acs_survey_interference_factor` equals the documented formula:
busy is the busy time if present, else the rx time; when tx time is
present it is subtracted from both busy and the total channel time;
the factor is `10^(nf/5) + (busy/total) * 2^(10^(nf/10) -
10^(min_nf/10))`.  When neither busy nor rx time is present the
function returns 0. -/
theorem acs_survey_interference_factor_spec (survey : freq_survey) (min_nf : Int) :
    (survey.has_chan_time_busy = true ∨ survey.has_chan_time_rx = true →
      acs_survey_interference_factor survey min_nf =
        (let busy0 : ℝ := if survey.has_chan_time_busy then
            (survey.channel_time_busy : ℝ) else (survey.channel_time_rx : ℝ)
         let total0 : ℝ := survey.channel_time
         let busy : ℝ := if survey.has_chan_time_tx then
            busy0 - survey.channel_time_tx else busy0
         let total : ℝ := if survey.has_chan_time_tx then
            total0 - survey.channel_time_tx else total0
         (10 : ℝ) ^ ((survey.nf : ℝ) / 5) +
           busy / total * (2 : ℝ) ^ ((10 : ℝ) ^ ((survey.nf : ℝ) / 10) -
             (10 : ℝ) ^ ((min_nf : ℝ) / 10)))) ∧
    (survey.has_chan_time_busy = false → survey.has_chan_time_rx = false →
      acs_survey_interference_factor survey min_nf = 0) := by
  constructor
  · intro h
    unfold acs_survey_interference_factor
    cases hb : survey.has_chan_time_busy with
    | true => simp [hb]
    | false =>
      cases hr : survey.has_chan_time_rx with
      | true => simp [hb, hr]
      | false =>
        rcases h with h1 | h1
        · exact absurd h1 (by simp [hb])
        · exact absurd h1 (by simp [hr])
  · intro hb hr
    unfold acs_survey_interference_factor
    simp [hb, hr]

/-- Witness for C1 at a concrete record with busy time present. -/
theorem acs_survey_interference_factor_spec_witness :
    acs_survey_interference_factor rec_c1 (-111) =
      (let busy0 : ℝ := if rec_c1.has_chan_time_busy then
          (rec_c1.channel_time_busy : ℝ) else (rec_c1.channel_time_rx : ℝ)
       let total0 : ℝ := rec_c1.channel_time
       let busy : ℝ := if rec_c1.has_chan_time_tx then
          busy0 - rec_c1.channel_time_tx else busy0
       let total : ℝ := if rec_c1.has_chan_time_tx then
          total0 - rec_c1.channel_time_tx else total0
       (10 : ℝ) ^ ((rec_c1.nf : ℝ) / 5) +
         busy / total * (2 : ℝ) ^ ((10 : ℝ) ^ ((rec_c1.nf : ℝ) / 10) -
           (10 : ℝ) ^ (((-111 : Int) : ℝ) / 10))) :=
  (acs_survey_interference_factor_spec rec_c1 (-111)).1 (Or.inl rfl)

/-- C3 counterexample: a sufficient record whose tx time exceeds its
busy time makes the ratio negative, so the score drops strictly below
the additive floor term `10^(nf/5)`. -/
theorem acs_score_floor_bound_counterexample :
    acs_survey_is_sufficient rec_c3 = true ∧
    acs_survey_interference_factor rec_c3 0 < (10 : ℝ) ^ ((rec_c3.nf : ℝ) / 5) := by
  refine ⟨by decide, ?_⟩
  have hval : acs_survey_interference_factor rec_c3 0 = 0 := by
    unfold acs_survey_interference_factor
    norm_num [rec_c3, Real.rpow_zero]
  have hnf : ((rec_c3.nf : ℝ)) = 0 := by norm_num [rec_c3]
  rw [hval, hnf]
  norm_num [Real.rpow_zero]

/-- C3 (amended): for every sufficient record, provided the tx time
(when present) does not exceed the chosen busy value and the total
channel time, the score is bounded below by `10^(nf/5)`. -/
theorem acs_score_floor_bound (survey : freq_survey) (min_nf : Int)
    (hsuff : acs_survey_is_sufficient survey = true)
    (htx : survey.has_chan_time_tx = true →
      survey.channel_time_tx ≤ (if survey.has_chan_time_busy then
        survey.channel_time_busy else survey.channel_time_rx) ∧
      survey.channel_time_tx ≤ survey.channel_time) :
    (10 : ℝ) ^ ((survey.nf : ℝ) / 5) ≤ acs_survey_interference_factor survey min_nf := by
  have hbr := acs_sufficient_has_busy_or_rx survey hsuff
  have hexp : (0 : ℝ) < (2 : ℝ) ^ ((10 : ℝ) ^ ((survey.nf : ℝ) / 10) -
      (10 : ℝ) ^ ((min_nf : ℝ) / 10)) :=
    Real.rpow_pos_of_pos (by norm_num) _
  by_cases hb : survey.has_chan_time_busy = true
  · have hbusy0 : (0 : ℝ) ≤ if survey.has_chan_time_tx then
        (survey.channel_time_busy : ℝ) - survey.channel_time_tx
      else (survey.channel_time_busy : ℝ) := by
      by_cases ht : survey.has_chan_time_tx = true
      · have h1 := (htx ht).1
        rw [if_pos hb] at h1
        rw [if_pos ht]
        have : (survey.channel_time_tx : ℝ) ≤ (survey.channel_time_busy : ℝ) := by
          exact_mod_cast h1
        linarith
      · rw [if_neg ht]
        positivity
    have htotal0 : (0 : ℝ) ≤ if survey.has_chan_time_tx then
        (survey.channel_time : ℝ) - survey.channel_time_tx
      else (survey.channel_time : ℝ) := by
      by_cases ht : survey.has_chan_time_tx = true
      · have h2 := (htx ht).2
        rw [if_pos ht]
        have : (survey.channel_time_tx : ℝ) ≤ (survey.channel_time : ℝ) := by
          exact_mod_cast h2
        linarith
      · rw [if_neg ht]
        positivity
    unfold acs_survey_interference_factor
    simp only [hb, if_true]
    exact le_add_of_nonneg_right
      (mul_nonneg (div_nonneg hbusy0 htotal0) hexp.le)
  · have hr : survey.has_chan_time_rx = true := by
      rcases hbr with h1 | h1
      · exact absurd h1 hb
      · exact h1
    have hbusy0 : (0 : ℝ) ≤ if survey.has_chan_time_tx then
        (survey.channel_time_rx : ℝ) - survey.channel_time_tx
      else (survey.channel_time_rx : ℝ) := by
      by_cases ht : survey.has_chan_time_tx = true
      · have h1 := (htx ht).1
        rw [if_neg hb] at h1
        rw [if_pos ht]
        have : (survey.channel_time_tx : ℝ) ≤ (survey.channel_time_rx : ℝ) := by
          exact_mod_cast h1
        linarith
      · rw [if_neg ht]
        positivity
    have htotal0 : (0 : ℝ) ≤ if survey.has_chan_time_tx then
        (survey.channel_time : ℝ) - survey.channel_time_tx
      else (survey.channel_time : ℝ) := by
      by_cases ht : survey.has_chan_time_tx = true
      · have h2 := (htx ht).2
        rw [if_pos ht]
        have : (survey.channel_time_tx : ℝ) ≤ (survey.channel_time : ℝ) := by
          exact_mod_cast h2
        linarith
      · rw [if_neg ht]
        positivity
    unfold acs_survey_interference_factor
    have hb' : survey.has_chan_time_busy = false := by
      cases h : survey.has_chan_time_busy
      · rfl
      · exact absurd h hb
    simp only [hb', hr, if_false, if_true, Bool.false_eq_true]
    exact le_add_of_nonneg_right
      (mul_nonneg (div_nonneg hbusy0 htotal0) hexp.le)

/-- Witness for the amended C3 at a concrete record. -/
theorem acs_score_floor_bound_witness :
    (10 : ℝ) ^ ((rec_c3w.nf : ℝ) / 5) ≤
      acs_survey_interference_factor rec_c3w (-95) :=
  acs_score_floor_bound rec_c3w (-95) (by decide) (by decide)

/-- C6: a record is sufficient iff it carries noise floor, total channel
time, and at least one of busy time or rx time; a channel table is
sufficient iff every record of every non-disabled channel is
sufficient. -/
theorem acs_sufficiency_characterization {α : Type} (survey : freq_survey)
    (iface : hostapd_iface α) :
    (acs_survey_is_sufficient survey = true ↔
      survey.has_nf = true ∧ survey.has_chan_time = true ∧
        (survey.has_chan_time_busy = true ∨ survey.has_chan_time_rx = true)) ∧
    (acs_surveys_are_sufficient iface = true ↔
      ∀ chan ∈ iface.channels, chan.disabled = false →
        ∀ s ∈ chan.survey_list, acs_survey_is_sufficient s = true) := by
  constructor
  · obtain ⟨nf, ct, ctb, ctr, ctt, hnf, hct, hb, hr, ht⟩ := survey
    cases hnf <;> cases hct <;> cases hb <;> cases hr <;>
      simp [acs_survey_is_sufficient]
  · unfold acs_surveys_are_sufficient
    rw [List.all_eq_true]
    constructor
    · intro h chan hmem hdis s hs
      have h1 := h chan hmem
      rw [hdis] at h1
      simp only [Bool.false_eq_true, if_false] at h1
      exact List.all_eq_true.mp h1 s hs
    · intro h chan hmem
      by_cases hd : chan.disabled = true
      · simp [hd]
      · have hd' : chan.disabled = false := by
          cases hx : chan.disabled
          · rfl
          · exact absurd hx hd
        rw [hd']
        simp only [Bool.false_eq_true, if_false]
        rw [List.all_eq_true]
        intro s hs
        exact h chan hmem hd' s hs

/-- Witness for C6 at a concrete record and interface. -/
theorem acs_sufficiency_characterization_witness :
    acs_surveys_are_sufficient iface_c4 = true ↔
      ∀ chan ∈ iface_c4.channels, chan.disabled = false →
        ∀ s ∈ chan.survey_list, acs_survey_is_sufficient s = true :=
  (acs_sufficiency_characterization rec_c1 iface_c4).2

lemma acs_ideal_step_none {α : Type} [LinearOrder α]
    (c : hostapd_channel_data α × α) : acs_ideal_step none c = some c := rfl

lemma acs_ideal_step_some {α : Type} [LinearOrder α]
    (b c : hostapd_channel_data α × α) :
    acs_ideal_step (some b) c = if c.2 < b.2 then some c else some b := rfl

lemma selectFirstMin_cons_cons {β α : Type} [LinearOrder α]
    (p x : β × α) (xs : List (β × α)) :
    selectFirstMin (p :: x :: xs) =
      if x.2 < p.2 then selectFirstMin (x :: xs) else selectFirstMin (p :: xs) := by
  by_cases hxp : x.2 < p.2
  · rw [if_pos hxp]
    unfold selectFirstMin
    have hpred : (fun z : β × α => (p :: x :: xs).all (fun y => decide (z.2 ≤ y.2)))
        = (fun z : β × α => (x :: xs).all (fun y => decide (z.2 ≤ y.2))) := by
      funext z
      simp only [List.all_cons]
      by_cases hzx : z.2 ≤ x.2
      · have hzp : z.2 ≤ p.2 := le_trans hzx hxp.le
        simp [hzx, hzp]
      · simp [hzx]
    rw [hpred]
    have hp : ((x :: xs).all (fun y => decide (p.2 ≤ y.2))) = false := by
      simp only [List.all_cons]
      have hnle : ¬ (p.2 ≤ x.2) := not_le.mpr hxp
      simp [hnle]
    exact List.find?_cons_of_neg _ (by simp [hp])
  · rw [if_neg hxp]
    have hpx : p.2 ≤ x.2 := not_lt.mp hxp
    unfold selectFirstMin
    have hpred : (fun z : β × α => (p :: x :: xs).all (fun y => decide (z.2 ≤ y.2)))
        = (fun z : β × α => (p :: xs).all (fun y => decide (z.2 ≤ y.2))) := by
      funext z
      simp only [List.all_cons]
      by_cases hzp : z.2 ≤ p.2
      · have hzx : z.2 ≤ x.2 := le_trans hzp hpx
        simp [hzp, hzx]
      · simp [hzp]
    rw [hpred]
    by_cases hrp : ((p :: xs).all (fun y => decide (p.2 ≤ y.2))) = true
    · have e1 : List.find? (fun z : β × α => (p :: xs).all fun y => decide (z.2 ≤ y.2))
          (p :: x :: xs) = some p := List.find?_cons_of_pos _ hrp
      have e2 : List.find? (fun z : β × α => (p :: xs).all fun y => decide (z.2 ≤ y.2))
          (p :: xs) = some p := List.find?_cons_of_pos _ hrp
      rw [e1, e2]
    · have hrx : ¬ ((p :: xs).all (fun y => decide (x.2 ≤ y.2))) = true := by
        intro hx
        rw [List.all_cons] at hx
        obtain ⟨hx1, hx2⟩ : (decide (x.2 ≤ p.2) = true) ∧
            ((xs.all fun y => decide (x.2 ≤ y.2)) = true) :=
          (Bool.and_eq_true _ _) ▸ hx
        have hxp2 : x.2 ≤ p.2 := of_decide_eq_true hx1
        have heq : x.2 = p.2 := le_antisymm hxp2 hpx
        apply hrp
        rw [List.all_cons]
        have hd : decide (p.2 ≤ p.2) = true := by simp
        have ha : (xs.all fun y => decide (p.2 ≤ y.2)) = true := by
          rw [← heq]
          exact hx2
        rw [hd, ha]
        rfl
      have e1 : List.find? (fun z : β × α => (p :: xs).all fun y => decide (z.2 ≤ y.2))
          (p :: x :: xs) = List.find?
            (fun z : β × α => (p :: xs).all fun y => decide (z.2 ≤ y.2)) (x :: xs) :=
        List.find?_cons_of_neg _ hrp
      have e2 : List.find? (fun z : β × α => (p :: xs).all fun y => decide (z.2 ≤ y.2))
          (x :: xs) = List.find?
            (fun z : β × α => (p :: xs).all fun y => decide (z.2 ≤ y.2)) xs :=
        List.find?_cons_of_neg _ hrx
      have e3 : List.find? (fun z : β × α => (p :: xs).all fun y => decide (z.2 ≤ y.2))
          (p :: xs) = List.find?
            (fun z : β × α => (p :: xs).all fun y => decide (z.2 ≤ y.2)) xs :=
        List.find?_cons_of_neg _ hrp
      rw [e1, e2, e3]

lemma acs_ideal_foldl_some {α : Type} [LinearOrder α]
    (l : List (hostapd_channel_data α × α)) :
    ∀ p, l.foldl acs_ideal_step (some p) = selectFirstMin (p :: l) := by
  induction l with
  | nil =>
    intro p
    unfold selectFirstMin
    rw [List.find?_cons_of_pos _ (by simp)]
    rfl
  | cons x xs ih =>
    intro p
    rw [List.foldl_cons, acs_ideal_step_some, selectFirstMin_cons_cons]
    by_cases h : x.2 < p.2
    · rw [if_pos h, if_pos h, ih x]
    · rw [if_neg h, if_neg h, ih p]

lemma acs_ideal_foldl_none {α : Type} [LinearOrder α]
    (l : List (hostapd_channel_data α × α)) :
    l.foldl acs_ideal_step none = selectFirstMin l := by
  cases l with
  | nil => rfl
  | cons x xs =>
    rw [List.foldl_cons, acs_ideal_step_none]
    exact acs_ideal_foldl_some xs x

lemma acs_foldl_filterMap {α : Type} [Add α] [LinearOrder α]
    (iface : hostapd_iface α) (l : List (hostapd_channel_data α)) :
    ∀ st, l.foldl
      (fun st chan =>
        match acs_candidate_factor iface (acs_num_chans iface.conf) chan with
        | none => st
        | some factor => acs_ideal_step st (chan, factor)) st
    = (l.filterMap (fun chan =>
        (acs_candidate_factor iface (acs_num_chans iface.conf) chan).map
          (fun factor => (chan, factor)))).foldl acs_ideal_step st := by
  induction l with
  | nil => intro st; rfl
  | cons c cs ih =>
    intro st
    rw [List.foldl_cons, List.filterMap_cons]
    cases h : acs_candidate_factor iface (acs_num_chans iface.conf) c with
    | none => simp only [h]; exact ih st
    | some f =>
      simp only [h, Option.map_some']
      rw [List.foldl_cons]
      exact ih _

lemma acs_find_ideal_state_eq {α : Type} [Add α] [LinearOrder α]
    (iface : hostapd_iface α) :
    acs_find_ideal_state iface = selectFirstMin (acs_candidates iface) := by
  unfold acs_find_ideal_state acs_candidates
  rw [acs_foldl_filterMap iface iface.channels none]
  exact acs_ideal_foldl_none _

/-- C5: away from the upfront HT40- rejection, `acs_find_ideal_chan`
returns exactly the first-encountered (lowest channel-table index)
qualifying candidate whose accumulated total is less than or equal to
every other candidate's total: the strict less-than update never lets a
later equal total replace an earlier candidate, and the function is
deterministic on identical inputs. -/
theorem acs_find_ideal_chan_first_seen_min {α : Type} [Add α] [LinearOrder α]
    (iface : hostapd_iface α)
    (h : ¬ (iface.conf.ieee80211n = true ∧ iface.conf.secondary_channel = -1)) :
    acs_find_ideal_chan iface =
      (selectFirstMin (acs_candidates iface)).map Prod.fst := by
  unfold acs_find_ideal_chan
  rw [if_neg h, acs_find_ideal_state_eq]

/-- Witness for C5 at a concrete two-channel table. -/
theorem acs_find_ideal_chan_first_seen_min_witness :
    acs_find_ideal_chan iface_c4 =
      (selectFirstMin (acs_candidates iface_c4)).map Prod.fst :=
  acs_find_ideal_chan_first_seen_min iface_c4 (by decide)

lemma acs_bw_foldl_none {α : Type} [Add α] (iface : hostapd_iface α)
    (freq0 : Int) (l : List Nat) :
    l.foldl (acs_bw_step iface freq0) none = none := by
  induction l with
  | nil => rfl
  | cons j js ih => rw [List.foldl_cons]; exact ih

lemma acs_bw_total_lookup {α : Type} [Add α] (iface : hostapd_iface α)
    (freq0 : Int) (l : List Nat) :
    ∀ (a f : α), l.foldl (acs_bw_step iface freq0) (some a) = some f →
      ∀ j ∈ l, ∃ adj, acs_find_chan iface (freq0 + 20 * (j : Int)) = some adj := by
  induction l with
  | nil =>
    intro a f _ j hj
    exact absurd hj (List.not_mem_nil j)
  | cons k ks ih =>
    intro a f hfold j hj
    rw [List.foldl_cons] at hfold
    cases hk : acs_find_chan iface (freq0 + 20 * (k : Int)) with
    | none =>
      exfalso
      have hstep : acs_bw_step iface freq0 (some a) k = none := by
        unfold acs_bw_step
        rw [hk]
      rw [hstep, acs_bw_foldl_none] at hfold
      exact Option.noConfusion hfold
    | some adj =>
      have hstep : acs_bw_step iface freq0 (some a) k =
          some (a + adj.survey_interference_factor) := by
        unfold acs_bw_step
        rw [hk]
      rw [hstep] at hfold
      rcases List.mem_cons.mp hj with h1 | h1
      · subst h1
        exact ⟨adj, hk⟩
      · exact ih _ _ hfold j h1

lemma acs_find_chan_spec {α : Type} (iface : hostapd_iface α) (freq : Int)
    (c : hostapd_channel_data α) (h : acs_find_chan iface freq = some c) :
    c ∈ iface.channels ∧ acs_usable_chan c = true ∧ c.freq = freq := by
  unfold acs_find_chan at h
  obtain ⟨h1, h2⟩ : acs_usable_chan c = true ∧ c.freq = freq := by
    simpa using List.find?_some h
  exact ⟨List.mem_of_find?_eq_some h, h1, h2⟩

lemma acs_usable_chan_spec {α : Type} (chan : hostapd_channel_data α)
    (h : acs_usable_chan chan = true) :
    chan.disabled = false ∧ chan.survey_list ≠ [] := by
  unfold acs_usable_chan at h
  by_cases h1 : chan.survey_list.isEmpty = true
  · rw [if_pos h1] at h
    exact absurd h (by simp)
  · rw [if_neg h1] at h
    by_cases h2 : chan.disabled = true
    · rw [if_pos h2] at h
      exact absurd h (by simp)
    · constructor
      · cases hx : chan.disabled
        · rfl
        · exact absurd hx h2
      · intro hnil
        apply h1
        rw [hnil]
        rfl

lemma acs_candidate_factor_bw {α : Type} [Add α] (iface : hostapd_iface α)
    (n_chans : Nat) (chan : hostapd_channel_data α) (f : α)
    (h : acs_candidate_factor iface n_chans chan = some f) :
    ∃ g, acs_bw_total iface chan n_chans = some g := by
  unfold acs_candidate_factor at h
  by_cases h1 : ¬ acs_usable_chan chan = true
  · rw [if_pos h1] at h
    exact Option.noConfusion h
  · rw [if_neg h1] at h
    by_cases h2 : iface.mode = hostapd_hw_mode.ieee80211a ∧
        iface.conf.ieee80211n = true ∧ iface.conf.secondary_channel ≠ 0 ∧
        ¬ acs_usable_ht40_chan chan = true
    · rw [if_pos h2] at h
      exact Option.noConfusion h
    · rw [if_neg h2] at h
      cases hbw : acs_bw_total iface chan n_chans with
      | none =>
        rw [hbw] at h
        exact Option.noConfusion h
      | some g => exact ⟨g, rfl⟩

lemma acs_candidates_mem {α : Type} [Add α] (iface : hostapd_iface α)
    (c : hostapd_channel_data α) (f : α)
    (h : (c, f) ∈ acs_candidates iface) :
    c ∈ iface.channels ∧
      acs_candidate_factor iface (acs_num_chans iface.conf) c = some f := by
  unfold acs_candidates at h
  rcases List.mem_filterMap.mp h with ⟨chan, hmem, hmap⟩
  cases hcf : acs_candidate_factor iface (acs_num_chans iface.conf) chan with
  | none =>
    rw [hcf] at hmap
    exact Option.noConfusion hmap
  | some g =>
    rw [hcf] at hmap
    simp only [Option.map_some'] at hmap
    have h3 : (chan, g) = (c, f) := Option.some.inj hmap
    obtain ⟨hc, hg⟩ := Prod.ext_iff.mp h3
    subst hc
    subst hg
    exact ⟨hmem, hcf⟩

lemma acs_find_ideal_chan_some {α : Type} [Add α] [LinearOrder α]
    (iface : hostapd_iface α) (c : hostapd_channel_data α)
    (h : acs_find_ideal_chan iface = some c) :
    ∃ f, (c, f) ∈ acs_candidates iface := by
  unfold acs_find_ideal_chan at h
  by_cases hg : iface.conf.ieee80211n = true ∧ iface.conf.secondary_channel = -1
  · rw [if_pos hg] at h
    exact Option.noConfusion h
  · rw [if_neg hg] at h
    rw [acs_find_ideal_state_eq] at h
    cases hsel : selectFirstMin (acs_candidates iface) with
    | none =>
      rw [hsel] at h
      exact Option.noConfusion h
    | some p =>
      rw [hsel] at h
      simp only [Option.map_some'] at h
      have hp : p.1 = c := Option.some.inj h
      refine ⟨p.2, ?_⟩
      have hmem : p ∈ acs_candidates iface := List.mem_of_find?_eq_some hsel
      rw [← hp, Prod.mk.eta]
      exact hmem

/-- C4: whenever `acs_find_ideal_chan` returns a channel in an n
sub-channel bandwidth mode, every required sub-channel frequency
`freq + j*20` MHz (j = 1 .. n-1) is occupied by an enabled channel with
a non-empty survey list; contrapositively, a candidate with a missing
sub-channel is never returned, regardless of its own score. -/
theorem acs_find_ideal_chan_requires_contiguous_subchans {α : Type} [Add α]
    [LinearOrder α] (iface : hostapd_iface α) (c : hostapd_channel_data α)
    (hfound : acs_find_ideal_chan iface = some c) (j : Nat)
    (hj1 : 1 ≤ j) (hj2 : j < acs_num_chans iface.conf) :
    ∃ adj ∈ iface.channels, adj.disabled = false ∧ adj.survey_list ≠ [] ∧
      adj.freq = c.freq + 20 * (j : Int) := by
  obtain ⟨f, hmem⟩ := acs_find_ideal_chan_some iface c hfound
  obtain ⟨-, hcf⟩ := acs_candidates_mem iface c f hmem
  obtain ⟨g, hbw⟩ := acs_candidate_factor_bw iface _ c f hcf
  unfold acs_bw_total at hbw
  have hjmem : j ∈ List.range' 1 (acs_num_chans iface.conf - 1) := by
    rw [List.mem_range'_1]
    omega
  obtain ⟨adj, hadj⟩ := acs_bw_total_lookup iface c.freq _ _ _ hbw j hjmem
  obtain ⟨hmem2, husable, hfreq⟩ := acs_find_chan_spec iface _ adj hadj
  obtain ⟨hdis, hnil⟩ := acs_usable_chan_spec adj husable
  exact ⟨adj, hmem2, hdis, hnil, hfreq⟩

/-- Witness for C4: a 40 MHz table where the returned channel's +20 MHz
neighbour is present. -/
theorem acs_find_ideal_chan_requires_contiguous_subchans_witness :
    acs_find_ideal_chan iface_c4 = some chan_c4a ∧
    ∃ adj ∈ iface_c4.channels, adj.disabled = false ∧ adj.survey_list ≠ [] ∧
      adj.freq = chan_c4a.freq + 20 * ((1 : Nat) : Int) :=
  ⟨by decide, acs_find_ideal_chan_requires_contiguous_subchans iface_c4 chan_c4a
    (by decide) 1 (by decide) (by decide)⟩

lemma acs_adj_add_eq {α : Type} [AddZeroClass α] (iface : hostapd_iface α)
    (freq : Int) (x : α) :
    acs_adj_add iface freq x = x + acs_found_factor (acs_find_chan iface freq) := by
  unfold acs_adj_add acs_found_factor
  cases acs_find_chan iface freq with
  | none => rw [add_zero]
  | some adj => rfl

lemma acs_adj_step_eq {α : Type} [AddMonoid α] (iface : hostapd_iface α)
    (freq0 : Int) (x : α) (j : Nat) :
    acs_adj_step iface freq0 x j =
      x + (acs_found_factor (acs_find_chan iface (freq0 + 20 * (j : Int) - 5)) +
        acs_found_factor (acs_find_chan iface (freq0 + 20 * (j : Int) - 10)) +
        acs_found_factor (acs_find_chan iface (freq0 + 20 * (j : Int) + 5)) +
        acs_found_factor (acs_find_chan iface (freq0 + 20 * (j : Int) + 10))) := by
  unfold acs_adj_step
  rw [acs_adj_add_eq, acs_adj_add_eq, acs_adj_add_eq, acs_adj_add_eq]
  simp only [add_assoc]

lemma acs_adj_total_eq {α : Type} [AddMonoid α] (iface : hostapd_iface α)
    (chan : hostapd_channel_data α) (n_chans : Nat) (factor : α) :
    acs_adj_total iface chan n_chans factor =
      factor + ((List.range n_chans).map (fun (j : Nat) =>
        acs_found_factor (acs_find_chan iface (chan.freq + 20 * (j : Int) - 5)) +
        acs_found_factor (acs_find_chan iface (chan.freq + 20 * (j : Int) - 10)) +
        acs_found_factor (acs_find_chan iface (chan.freq + 20 * (j : Int) + 5)) +
        acs_found_factor (acs_find_chan iface (chan.freq + 20 * (j : Int) + 10)))).sum := by
  unfold acs_adj_total
  induction n_chans with
  | zero => simp
  | succ n ih =>
    rw [List.range_succ, List.foldl_append, List.map_append, List.sum_append]
    rw [List.foldl_cons, List.foldl_nil, acs_adj_step_eq, ih]
    simp [add_assoc]

/-- C10: the 2.4 GHz adjacent-channel accumulation runs over sub-channel
indices j = 0 .. n-1, so already in 20 MHz mode (n = 1) a candidate's
total adds, on top of its contiguous-bandwidth total, the average
factor found at the candidate's own frequency -5, -10, +5 and +10 MHz;
a lookup that finds nothing contributes 0, and the lookup only ever
returns enabled channels with a non-empty survey list. -/
theorem acs_24ghz_adjacent_accumulation {α : Type} [LinearOrderedField α]
    (iface : hostapd_iface α) (n_chans : Nat) (chan : hostapd_channel_data α) :
    (∀ factor : α, acs_adj_total iface chan n_chans factor =
      factor + ((List.range n_chans).map (fun (j : Nat) =>
        acs_found_factor (acs_find_chan iface (chan.freq + 20 * (j : Int) - 5)) +
        acs_found_factor (acs_find_chan iface (chan.freq + 20 * (j : Int) - 10)) +
        acs_found_factor (acs_find_chan iface (chan.freq + 20 * (j : Int) + 5)) +
        acs_found_factor (acs_find_chan iface (chan.freq + 20 * (j : Int) + 10)))).sum) ∧
    ((iface.mode = hostapd_hw_mode.ieee80211b ∨
        iface.mode = hostapd_hw_mode.ieee80211g) →
      acs_usable_chan chan = true →
      acs_candidate_factor iface n_chans chan =
        (acs_bw_total iface chan n_chans).map
          (fun f => acs_adj_total iface chan n_chans f)) ∧
    (∀ (freq : Int) (c : hostapd_channel_data α),
      acs_find_chan iface freq = some c →
        c.disabled = false ∧ c.survey_list ≠ [] ∧ c.freq = freq) := by
  refine ⟨fun factor => acs_adj_total_eq iface chan n_chans factor, ?_, ?_⟩
  · intro hmode husable
    unfold acs_candidate_factor
    rw [if_neg (by simp [husable])]
    have hnota : ¬ (iface.mode = hostapd_hw_mode.ieee80211a ∧
        iface.conf.ieee80211n = true ∧ iface.conf.secondary_channel ≠ 0 ∧
        ¬ acs_usable_ht40_chan chan = true) := by
      rcases hmode with h | h <;> simp [h]
    rw [if_neg hnota]
    cases hbw : acs_bw_total iface chan n_chans with
    | none => rfl
    | some f =>
      simp only [Option.map_some']
      rw [if_pos hmode]
  · intro freq c hfind
    obtain ⟨-, husable, hfreq⟩ := acs_find_chan_spec iface freq c hfind
    obtain ⟨hdis, hnil⟩ := acs_usable_chan_spec c husable
    exact ⟨hdis, hnil, hfreq⟩

/-- Witness for C10 at a concrete 20 MHz 2.4 GHz table. -/
theorem acs_24ghz_adjacent_accumulation_witness :
    acs_candidate_factor iface_c10 1 chan_c10a =
      (acs_bw_total iface_c10 chan_c10a 1).map
        (fun f => acs_adj_total iface_c10 chan_c10a 1 f) :=
  (acs_24ghz_adjacent_accumulation iface_c10 1 chan_c10a).2.1
    (Or.inr rfl) (by decide)

lemma acs_cleanup_channels {α : Type} (iface : hostapd_iface α) :
    ∀ chan ∈ (acs_cleanup iface).channels,
      chan.survey_list = [] ∧ chan.min_nf = 0 := by
  intro chan hmem
  unfold acs_cleanup at hmem
  simp only at hmem
  rcases List.mem_map.mp hmem with ⟨c, -, rfl⟩
  exact ⟨rfl, rfl⟩

lemma acs_study_fst_clean {α : Type} [LinearOrderedField α]
    (score : freq_survey → Int → α) (completed : hostapd_chan_status)
    (iface : hostapd_iface α) :
    ∃ x, (acs_study score completed iface).1 = acs_cleanup x := by
  simp only [acs_study, acs_fail]
  split
  · exact ⟨_, rfl⟩
  · split
    · exact ⟨_, rfl⟩
    · split
      · exact ⟨_, rfl⟩
      · exact ⟨_, rfl⟩

lemma acs_study_options_conf {α : Type} [LinearOrderedField α]
    (score : freq_survey → Int → α) (iface : hostapd_iface α) :
    (acs_study_options score iface).1.conf = iface.conf := by
  unfold acs_study_options acs_study_survey_based
  split
  · rfl
  · split
    · rfl
    · rfl

lemma acs_study_cases {α : Type} [LinearOrderedField α]
    (score : freq_survey → Int → α) (completed : hostapd_chan_status)
    (iface : hostapd_iface α) :
    (acs_study score completed iface).2 = acs_run_outcome.failed ∨
    ((acs_study score completed iface).2 = acs_run_outcome.committed ∧
      completed = hostapd_chan_status.valid) := by
  simp only [acs_study, acs_fail]
  split
  · exact Or.inl rfl
  · split
    · exact Or.inl rfl
    · split
      · exact Or.inr ⟨rfl, rfl⟩
      · exact Or.inl rfl

/-- C2 counterexample: on a concrete HT40- configuration, `acs_init`
still submits a scan request to the driver and reports the run as
started (HOSTAPD_CHAN_ACS), not as a failure; the claimed upfront
rejection without a scan does not happen. -/
theorem acs_init_ht40minus_scan_still_submitted :
    (acs_init iface_ht40m true).2.2 = true ∧
    (acs_init iface_ht40m true).2.1 = hostapd_chan_status.acs :=
  ⟨rfl, rfl⟩

/-- C2 (amended): with HT enabled and the minus secondary offset, the
unsupported-configuration rejection happens at the selection stage:
`acs_find_ideal_chan` returns none for every channel table, so the run
reaches the FAILED terminal during `acs_study`; `acs_init` itself still
submits the scan request. -/
theorem acs_ht40minus_rejected_at_selection {α : Type} [LinearOrderedField α]
    (score : freq_survey → Int → α) (completed : hostapd_chan_status)
    (iface : hostapd_iface α) (driver_ok : Bool)
    (hn : iface.conf.ieee80211n = true)
    (hsec : iface.conf.secondary_channel = -1) :
    acs_find_ideal_chan iface = none ∧
    (acs_study score completed iface).2 = acs_run_outcome.failed ∧
    (acs_init iface driver_ok).2.2 = true := by
  refine ⟨?_, ?_, ?_⟩
  · unfold acs_find_ideal_chan
    rw [if_pos ⟨hn, hsec⟩]
  · simp only [acs_study, acs_fail]
    split
    · rfl
    · have h1 : (acs_study_options score iface).1.conf = iface.conf :=
        acs_study_options_conf score iface
      have hideal : acs_find_ideal_chan (acs_study_options score iface).1 = none := by
        unfold acs_find_ideal_chan
        rw [if_pos (by rw [h1]; exact ⟨hn, hsec⟩)]
      rw [hideal]
  · cases driver_ok
    · rfl
    · rfl

/-- Witness for the amended C2 at a concrete HT40- interface. -/
theorem acs_ht40minus_rejected_at_selection_witness :
    acs_find_ideal_chan iface_c2q = none ∧
    (acs_study score0 hostapd_chan_status.valid iface_c2q).2 =
      acs_run_outcome.failed :=
  ⟨(acs_ht40minus_rejected_at_selection score0 hostapd_chan_status.valid
      iface_c2q true rfl rfl).1,
   (acs_ht40minus_rejected_at_selection score0 hostapd_chan_status.valid
      iface_c2q true rfl rfl).2.1⟩

/-- C7: after every terminal transition of a run — the FAILED handling
reached from any stage of `acs_study` or `acs_scan_complete`, the
failure exit of `acs_init`, or the successful COMMITTED exit — every
channel of the current mode's table has an empty survey list and
`min_nf = 0`. -/
theorem acs_terminal_states_clean {α : Type} [LinearOrderedField α]
    (score : freq_survey → Int → α) (completed : hostapd_chan_status)
    (iface : hostapd_iface α) (get_survey_result : Option (hostapd_iface α))
    (driver_ok : Bool) :
    (∀ chan ∈ (acs_study score completed iface).1.channels,
      chan.survey_list = [] ∧ chan.min_nf = 0) ∧
    (∀ chan ∈ (acs_scan_complete score completed iface get_survey_result).1.channels,
      chan.survey_list = [] ∧ chan.min_nf = 0) ∧
    (∀ chan ∈ (acs_init iface driver_ok).1.channels,
      chan.survey_list = [] ∧ chan.min_nf = 0) := by
  refine ⟨?_, ?_, ?_⟩
  · obtain ⟨x, hx⟩ := acs_study_fst_clean score completed iface
    rw [hx]
    exact acs_cleanup_channels x
  · unfold acs_scan_complete
    cases get_survey_result with
    | none =>
      obtain ⟨x, hx⟩ := acs_study_fst_clean score completed (acs_fail iface)
      rw [hx]
      exact acs_cleanup_channels x
    | some iface2 =>
      obtain ⟨x, hx⟩ := acs_study_fst_clean score completed iface2
      rw [hx]
      exact acs_cleanup_channels x
  · cases driver_ok
    · have hx : (acs_init iface false).1 = acs_cleanup (acs_cleanup iface) := rfl
      rw [hx]
      exact acs_cleanup_channels _
    · have hx : (acs_init iface true).1 = acs_cleanup iface := rfl
      rw [hx]
      exact acs_cleanup_channels _

/-- Witness for C7: the cleaned channel of a concrete failed run. -/
theorem acs_terminal_states_clean_witness :
    chan_c7_clean.survey_list = [] ∧ chan_c7_clean.min_nf = 0 :=
  (acs_terminal_states_clean score0 hostapd_chan_status.valid iface_c7 none
    true).1 chan_c7_clean (by decide)

/-- C8: in the commit transition only the VALID outcome of the external
setup-completion check produces the COMMITTED terminal (and it leaves
the survey store cleared); every other outcome, including the
ACS loop-back signal, yields the FAILED terminal. -/
theorem acs_commit_only_on_valid {α : Type} [LinearOrderedField α]
    (score : freq_survey → Int → α) (completed : hostapd_chan_status)
    (iface : hostapd_iface α) :
    ((acs_study score completed iface).2 = acs_run_outcome.committed →
      completed = hostapd_chan_status.valid) ∧
    (completed ≠ hostapd_chan_status.valid →
      (acs_study score completed iface).2 = acs_run_outcome.failed) ∧
    ((acs_study score completed iface).2 = acs_run_outcome.committed →
      ∀ chan ∈ (acs_study score completed iface).1.channels,
        chan.survey_list = [] ∧ chan.min_nf = 0) := by
  refine ⟨?_, ?_, ?_⟩
  · intro hc
    rcases acs_study_cases score completed iface with h | h
    · rw [h] at hc
      exact absurd hc (by decide)
    · exact h.2
  · intro hne
    rcases acs_study_cases score completed iface with h | h
    · exact h
    · exact absurd h.2 hne
  · intro _
    obtain ⟨x, hx⟩ := acs_study_fst_clean score completed iface
    rw [hx]
    exact acs_cleanup_channels x

/-- Witness for C8: the ACS loop-back outcome fails a concrete run. -/
theorem acs_commit_only_on_valid_witness :
    (acs_study score0 hostapd_chan_status.acs iface_c7).2 =
      acs_run_outcome.failed :=
  (acs_commit_only_on_valid score0 hostapd_chan_status.acs iface_c7).2.1
    (by decide)

/-- C9: a survey-retrieval failure in the scan-completion callback ends
the run in the FAILED terminal, leaves the configuration untouched (no
channel written), and resets every channel's transient survey state. -/
theorem acs_survey_retrieval_failure_fails_run {α : Type} [LinearOrderedField α]
    (score : freq_survey → Int → α) (completed : hostapd_chan_status)
    (iface : hostapd_iface α) :
    (acs_scan_complete score completed iface none).2 = acs_run_outcome.failed ∧
    (acs_scan_complete score completed iface none).1.conf = iface.conf ∧
    ∀ chan ∈ (acs_scan_complete score completed iface none).1.channels,
      chan.survey_list = [] ∧ chan.min_nf = 0 := by
  have hred : acs_scan_complete score completed iface none =
      (acs_fail (acs_fail iface), acs_run_outcome.failed) := rfl
  rw [hred]
  exact ⟨rfl, rfl, acs_cleanup_channels _⟩

/-- Witness for C9 at a concrete interface. -/
theorem acs_survey_retrieval_failure_fails_run_witness :
    (acs_scan_complete score0 hostapd_chan_status.valid iface_c7 none).2 =
      acs_run_outcome.failed ∧
    (acs_scan_complete score0 hostapd_chan_status.valid iface_c7 none).1.conf =
      iface_c7.conf :=
  ⟨(acs_survey_retrieval_failure_fails_run score0 hostapd_chan_status.valid
      iface_c7).1,
   (acs_survey_retrieval_failure_fails_run score0 hostapd_chan_status.valid
      iface_c7).2.1⟩
